import Mathlib

/-!
Shallow embedding of `src/data_build/.ipynb_checkpoints/functions-checkpoint.py`,
a set of pandas helpers for Medicare Advantage data processing.

Modelling conventions:
* A CSV file is a `List (List String)`: the list of records, each a list of
  raw cell strings (encoding concerns are out of scope; cells are abstract
  strings).  `pd.read_csv(..., skiprows=1, names=cols)` drops the first
  record and maps the remaining ones positionally onto the column names.
* The filesystem is a partial map `FS := String → Option CsvFile`.
* A pandas "missing" cell (NaN / NA) is `Option.none`; a populated cell of a
  string column is `some s`, of a float column `some (q : ℚ)`.  Machine
  floats only carry decimal literals here, so ℚ is an exact model of the
  values that occur; float NaN is identified with the absent marker, which
  is exactly how the program treats it.
* `pd.read_csv` converts a raw cell of a `str`-typed column to `none` when
  the cell is one of the recognized NA sentinels (pandas' default list,
  possibly extended by the reader's `na_values` argument), and keeps it as a
  raw string otherwise.  For a `float`/`Int64`-typed column a non-sentinel
  cell that does not parse raises, which we model with `Except.error`.
* `pd.to_numeric(..., errors="coerce")` is a total `String → Option ℚ`:
  unparseable input gives `none` (float NaN), never an error.  Exponent
  notation and infinities are not modelled (never exercised here).
* A reader called on a path that does not exist raises `FileNotFoundError`;
  its message names the path, modelled by `errnoMsg`.
-/

/-- A CSV file: records of raw cells (header record included). -/
abbrev CsvFile : Type := List (List String)

/-- The filesystem: maps a path to the file stored there, if any. -/
abbrev FS : Type := String → Option CsvFile

deriving instance DecidableEq for Except

/-- Cell access: pandas pads records that are shorter than the column list
with NaN; an out-of-range position reads as the empty string, which is an
NA sentinel. -/
def cellAt (row : List String) (i : Nat) : String :=
  row.getD i ""

/-- The default NA sentinels of `pd.read_csv` (its documented default
`na_values` list). -/
def defaultNA : List String :=
  ["", "#N/A", "#N/A N/A", "#NA", "-1.#IND", "-1.#QNAN", "-NaN", "-nan",
   "1.#IND", "1.#QNAN", "<NA>", "N/A", "NA", "NULL", "NaN", "None",
   "n/a", "nan", "null"]

/-- Sentinel conversion done by `pd.read_csv`: a cell equal to one of the
recognized NA strings becomes the typed absent marker. -/
def applyNA (na : List String) (s : String) : Option String :=
  if s ∈ na then none else some s

/-- Numeric value of a decimal digit. -/
def digitVal (c : Char) : Option Nat :=
  if c.isDigit then some (c.toNat - 48) else none

/-- Value of a digit string; `none` when any character is not a digit.
The empty list gives `some 0` (callers check emptiness). -/
def natOfDigits (cs : List Char) : Option Nat :=
  cs.foldl
    (fun acc c =>
      match acc, digitVal c with
      | some n, some d => some (10 * n + d)
      | _, _ => none)
    (some 0)

/-- Strip leading and trailing spaces (Python numeric conversion ignores
surrounding whitespace). -/
def trimSpaces (s : String) : String :=
  ⟨(((s.data.dropWhile (fun c => c = ' ')).reverse.dropWhile
      (fun c => c = ' ')).reverse)⟩

/-- Unsigned decimal literal: digits, optionally a point and more digits;
at least one digit overall (`"1."`, `".5"` parse, `"."` does not). -/
def parseUnsignedDec (cs : List Char) : Option ℚ :=
  let ip := cs.takeWhile Char.isDigit
  let rest := cs.dropWhile Char.isDigit
  match rest with
  | [] =>
    if ip.isEmpty then none
    else (natOfDigits ip).map (fun n => (n : ℚ))
  | '.' :: fp =>
    if ip.isEmpty && fp.isEmpty then none
    else
      match natOfDigits ip, natOfDigits fp with
      | some n, some f => some ((n : ℚ) + (f : ℚ) / (10 : ℚ) ^ fp.length)
      | _, _ => none
  | _ => none

/-- Python `float(s)` restricted to decimal literals: optional sign, digits
and an optional fractional part, surrounding spaces allowed.  `none` when
the string does not parse. -/
def parseFloat (s : String) : Option ℚ :=
  match (trimSpaces s).data with
  | '+' :: t => parseUnsignedDec t
  | '-' :: t => (parseUnsignedDec t).map Neg.neg
  | t => parseUnsignedDec t

/-- Python `int(s)`: optional sign and digits, surrounding spaces allowed. -/
def parseIntPy (s : String) : Option Int :=
  let core : List Char → Option Int := fun cs =>
    if cs.isEmpty then none
    else (natOfDigits cs).map (fun n => (n : Int))
  match (trimSpaces s).data with
  | '+' :: t => core t
  | '-' :: t => (core t).map Neg.neg
  | t => core t

/-- A cell of a `str`-typed column: sentinel conversion only. -/
def strCell (na : List String) (s : String) : Option String :=
  applyNA na s

/-- A cell of a `float`-typed column: sentinels become NaN; anything else
must parse as a float or `pd.read_csv` raises. -/
def floatCell (na : List String) (s : String) : Except String (Option ℚ) :=
  match applyNA na s with
  | none => Except.ok none
  | some t =>
    match parseFloat t with
    | some q => Except.ok (some q)
    | none => Except.error ("could not convert string to float: " ++ t)

/-- A cell of a nullable-integer (`Int64`) column. -/
def intCell (na : List String) (s : String) : Except String (Option Int) :=
  match applyNA na s with
  | none => Except.ok none
  | some t =>
    match parseIntPy t with
    | some n => Except.ok (some n)
    | none => Except.error ("invalid integer: " ++ t)

/-- Message of the `FileNotFoundError` that `pd.read_csv` raises for an
absent path. -/
def errnoMsg (p : String) : String :=
  "[Errno 2] No such file or directory: " ++ p

/-- A row of the contract info table produced by `read_contract`. -/
structure ContractRow where
  contractid : Option String
  planid : Option ℚ
  org_type : Option String
  plan_type : Option String
  partd : Option String
  snp : Option String
  eghp : Option String
  org_name : Option String
  org_marketing_name : Option String
  plan_name : Option String
  parent_org : Option String
  contract_date : Option String
deriving DecidableEq

/-- Parse one contract record (12 positional columns, dtypes as in
`read_contract`; no extra `na_values`, so only the pandas defaults). -/
def parseContractRow (row : List String) : Except String ContractRow := do
  let planid ← floatCell defaultNA (cellAt row 1)
  Except.ok
    { contractid := strCell defaultNA (cellAt row 0)
      planid := planid
      org_type := strCell defaultNA (cellAt row 2)
      plan_type := strCell defaultNA (cellAt row 3)
      partd := strCell defaultNA (cellAt row 4)
      snp := strCell defaultNA (cellAt row 5)
      eghp := strCell defaultNA (cellAt row 6)
      org_name := strCell defaultNA (cellAt row 7)
      org_marketing_name := strCell defaultNA (cellAt row 8)
      plan_name := strCell defaultNA (cellAt row 9)
      parent_org := strCell defaultNA (cellAt row 10)
      contract_date := strCell defaultNA (cellAt row 11) }

/-- `read_contract` applied to the contents of an existing file:
`skiprows=1`, then parse each record. -/
def read_contract_core (f : CsvFile) : Except String (List ContractRow) :=
  (List.drop 1 f).mapM parseContractRow

/-- `read_contract(path)`: `pd.read_csv` raises `FileNotFoundError` when the
path does not exist, before parsing anything. -/
def read_contract (fs : FS) (path : String) : Except String (List ContractRow) :=
  match fs path with
  | none => Except.error (errnoMsg path)
  | some f => read_contract_core f

/-- NA sentinels of `read_enroll`: `na_values="*"` extends the defaults. -/
def enrollNA : List String := "*" :: defaultNA

/-- A row of the enrollment table produced by `read_enroll`. -/
structure EnrollRow where
  contractid : Option String
  planid : Option ℚ
  ssa : Option ℚ
  fips : Option ℚ
  state : Option String
  county : Option String
  enrollment : Option ℚ
deriving DecidableEq

/-- Parse one enrollment record (7 positional columns, dtypes as in
`read_enroll`). -/
def parseEnrollRow (row : List String) : Except String EnrollRow := do
  let planid ← floatCell enrollNA (cellAt row 1)
  let ssa ← floatCell enrollNA (cellAt row 2)
  let fips ← floatCell enrollNA (cellAt row 3)
  let enrollment ← floatCell enrollNA (cellAt row 6)
  Except.ok
    { contractid := strCell enrollNA (cellAt row 0)
      planid := planid
      ssa := ssa
      fips := fips
      state := strCell enrollNA (cellAt row 4)
      county := strCell enrollNA (cellAt row 5)
      enrollment := enrollment }

/-- `read_enroll` applied to the contents of an existing file. -/
def read_enroll_core (f : CsvFile) : Except String (List EnrollRow) :=
  (List.drop 1 f).mapM parseEnrollRow

/-- `read_enroll(path)`. -/
def read_enroll (fs : FS) (path : String) : Except String (List EnrollRow) :=
  match fs path with
  | none => Except.error (errnoMsg path)
  | some f => read_enroll_core f

/-- Scan of `drop_duplicates(keep="first")`: keep a record when its key was
not seen before, accumulating the seen keys. -/
def dedupFirstAux {α κ : Type} [DecidableEq κ] (key : α → κ)
    (seen : List κ) : List α → List α
  | [] => []
  | x :: xs =>
    if key x ∈ seen then dedupFirstAux key seen xs
    else x :: dedupFirstAux key (key x :: seen) xs

/-- `df.drop_duplicates(subset=key, keep="first")`: keep the first record of
each key, preserving order.  `drop_duplicates` treats NaN keys as equal to
one another, which the decidable equality on `Option` captures. -/
def dedupFirst {α κ : Type} [DecidableEq κ] (key : α → κ)
    (xs : List α) : List α :=
  dedupFirstAux key [] xs

/-- Dedup/join key of `load_month`: the (contractid, planid) pair. -/
def keyCP (c : ContractRow) : Option String × Option ℚ :=
  (c.contractid, c.planid)

/-- Join key of an enrollment row. -/
def keyE (e : EnrollRow) : Option String × Option ℚ :=
  (e.contractid, e.planid)

/-- A row of `contract_info.merge(enroll_info, on=["contractid","planid"],
how="left")`: contract columns followed by the enrollment columns that are
not join keys. -/
structure CERow where
  contract : ContractRow
  ssa : Option ℚ
  fips : Option ℚ
  state : Option String
  county : Option String
  enrollment : Option ℚ
deriving DecidableEq

/-- A matched merge row takes the non-key columns from the enrollment row. -/
def ceJoin (c : ContractRow) (e : EnrollRow) : CERow :=
  { contract := c, ssa := e.ssa, fips := e.fips, state := e.state,
    county := e.county, enrollment := e.enrollment }

/-- An unmatched contract row keeps all enrollment columns absent. -/
def ceNone (c : ContractRow) : CERow :=
  { contract := c, ssa := none, fips := none, state := none,
    county := none, enrollment := none }

/-- pandas left merge: every left row in order; one output row per matching
right row (in right order), or a single NaN-padded row when no right row
matches.  pandas matches NaN join keys to NaN join keys, as does `Option`
equality. -/
def leftMergeCE (cs : List ContractRow) (es : List EnrollRow) : List CERow :=
  cs.flatMap fun c =>
    match es.filter (fun e => decide (keyE e = keyCP c)) with
    | [] => [ceNone c]
    | ms => ms.map (ceJoin c)

/-- An output row of `load_month`: the merged row plus the appended `month`
and `year` integer columns. -/
structure MonthRow where
  base : CERow
  month : Int
  year : Int
deriving DecidableEq

/-- The contract-file path `load_month` builds:
`MA_DATA_DIR / "ma" / "enrollment" / "Extracted Data" /
 f"CPSC_Contract_Info_{y}_{m}.csv"`. -/
def contractPath (m : String) (y : Int) : String :=
  "/home/gdanzil/econ470/a0/work/ma-data/ma/enrollment/Extracted Data/CPSC_Contract_Info_"
    ++ toString y ++ "_" ++ m ++ ".csv"

/-- The enrollment-file path `load_month` builds. -/
def enrollPath (m : String) (y : Int) : String :=
  "/home/gdanzil/econ470/a0/work/ma-data/ma/enrollment/Extracted Data/CPSC_Enrollment_Info_"
    ++ toString y ++ "_" ++ m ++ ".csv"

/-- `load_month(m, y)`: check that both expected files exist (raising a
missing-file error naming the path otherwise), read and dedup the contract
table on (contractid, planid), read the enrollment table, left-join, then
append `month = int(m)` and `year = y`. -/
def load_month (fs : FS) (m : String) (y : Int) :
    Except String (List MonthRow) :=
  match fs (contractPath m y) with
  | none => Except.error ("Missing contract file: " ++ contractPath m y)
  | some cf =>
    match fs (enrollPath m y) with
    | none => Except.error ("Missing enrollment file: " ++ enrollPath m y)
    | some ef =>
      match read_contract_core cf with
      | Except.error e => Except.error e
      | Except.ok cs =>
        match read_enroll_core ef with
        | Except.error e => Except.error e
        | Except.ok es =>
          match parseIntPy m with
          | none =>
            Except.error ("invalid literal for int() with base 10: " ++ m)
          | some mi =>
            Except.ok
              ((leftMergeCE (dedupFirst keyCP cs) es).map fun r => ⟨r, mi, y⟩)

/-- NA sentinels of `read_service_area`: `na_values="*"` extends the
defaults. -/
def saNA : List String := "*" :: defaultNA

/-- A scalar value the Python `partial`-column `.map` dictionary can meet:
the column holds strings after `read_csv`, but the dictionary also lists
the native booleans as keys. -/
inductive PyScalar where
  | s : String → PyScalar
  | b : Bool → PyScalar
deriving DecidableEq

/-- The dictionary lookup
`.map({"TRUE": True, "FALSE": False, True: True, False: False})`:
a value that is not a key of the dictionary (NaN included) maps to NaN. -/
def partialDict : Option PyScalar → Option Bool
  | some (PyScalar.s t) =>
    if t = "TRUE" then some true
    else if t = "FALSE" then some false
    else none
  | some (PyScalar.b b) => some b
  | none => none

/-- The partial-coverage cell of `read_service_area`: sentinel conversion by
`read_csv` (dtype `str`), then the boolean dictionary map. -/
def saPartialCell (s : String) : Option Bool :=
  partialDict ((applyNA saNA s).map PyScalar.s)

/-- A row of the service-area table produced by `read_service_area`.  The
source column is named `partial` (a Lean keyword), rendered here as
`partialCoverage`. -/
structure SARow where
  contractid : Option String
  org_name : Option String
  org_type : Option String
  plan_type : Option String
  partialCoverage : Option Bool
  eghp : Option String
  ssa : Option ℚ
  fips : Option ℚ
  county : Option String
  state : Option String
  notes : Option String
deriving DecidableEq

/-- Parse one service-area record (11 positional columns, dtypes as in
`read_service_area`, then the `partial` boolean conversion). -/
def parseSARow (row : List String) : Except String SARow := do
  let ssa ← floatCell saNA (cellAt row 6)
  let fips ← floatCell saNA (cellAt row 7)
  Except.ok
    { contractid := strCell saNA (cellAt row 0)
      org_name := strCell saNA (cellAt row 1)
      org_type := strCell saNA (cellAt row 2)
      plan_type := strCell saNA (cellAt row 3)
      partialCoverage := saPartialCell (cellAt row 4)
      eghp := strCell saNA (cellAt row 5)
      ssa := ssa
      fips := fips
      county := strCell saNA (cellAt row 8)
      state := strCell saNA (cellAt row 9)
      notes := strCell saNA (cellAt row 10) }

/-- `read_service_area` applied to the contents of an existing file. -/
def read_service_area_core (f : CsvFile) : Except String (List SARow) :=
  (List.drop 1 f).mapM parseSARow

/-- `read_service_area(path)`. -/
def read_service_area (fs : FS) (path : String) :
    Except String (List SARow) :=
  match fs path with
  | none => Except.error (errnoMsg path)
  | some f => read_service_area_core f

/-- An output row of `load_month_sa`. -/
structure SAMonthRow where
  base : SARow
  month : Int
  year : Int
deriving DecidableEq

/-- The path `load_month_sa` builds:
`f"../../ma-data/ma/service-area/Extracted Data/MA_Cnty_SA_{y}_{m}.csv"`. -/
def saPath (m : String) (y : Int) : String :=
  "../../ma-data/ma/service-area/Extracted Data/MA_Cnty_SA_"
    ++ toString y ++ "_" ++ m ++ ".csv"

/-- `load_month_sa(m, y)`: read the service-area file for the period (no
explicit existence check, so a missing file surfaces as the read error of
`pd.read_csv`), then append `month = int(m)` and `year = y`. -/
def load_month_sa (fs : FS) (m : String) (y : Int) :
    Except String (List SAMonthRow) :=
  match read_service_area fs (saPath m y) with
  | Except.error e => Except.error e
  | Except.ok df =>
    match parseIntPy m with
    | none => Except.error ("invalid literal for int() with base 10: " ++ m)
    | some mi => Except.ok (df.map fun r => ⟨r, mi, y⟩)

/-- NA sentinels of `read_penetration`:
`na_values=["", "NA", "*", "-", "--"]` extends the defaults. -/
def penNA : List String :=
  "" :: "NA" :: "*" :: "-" :: "--" :: defaultNA

/-- `.astype(str)` on a column cell: NaN prints as the string `"nan"`. -/
def astypeStr : Option String → String
  | none => "nan"
  | some s => s

/-- `.str.replace(",", "", regex=False)`: remove every comma. -/
def removeCommas (s : String) : String :=
  ⟨s.data.filter (fun c => decide (c ≠ ','))⟩

/-- `.str.replace("%", "", regex=False)`: remove every percent sign. -/
def removePct (s : String) : String :=
  ⟨s.data.filter (fun c => decide (c ≠ '%'))⟩

/-- `pd.to_numeric(..., errors="coerce")`: parse or yield NaN, never an
error. -/
def toNumericCoerce (s : String) : Option ℚ :=
  parseFloat s

/-- The numeric-text pipeline `read_penetration` applies to the
eligibles/enrolled/penetration columns: the column is read with dtype `str`
(sentinel conversion only), then
`pd.to_numeric(col.astype(str).str.replace(",","").str.replace("%",""),
errors="coerce")`. -/
def penNumCell (s : String) : Option ℚ :=
  toNumericCoerce (removePct (removeCommas (astypeStr (applyNA penNA s))))

/-- A row of the penetration table produced by `read_penetration`. -/
structure PenRow where
  state : Option String
  county : Option String
  fips_state : Option Int
  fips_cnty : Option Int
  fips : Option ℚ
  ssa_state : Option Int
  ssa_cnty : Option Int
  ssa : Option ℚ
  eligibles : Option ℚ
  enrolled : Option ℚ
  penetration : Option ℚ
deriving DecidableEq

/-- Parse one penetration record (11 positional columns, dtypes as in
`read_penetration`, then the numeric-text conversion of the last three
columns). -/
def parsePenRow (row : List String) : Except String PenRow := do
  let fips_state ← intCell penNA (cellAt row 2)
  let fips_cnty ← intCell penNA (cellAt row 3)
  let fips ← floatCell penNA (cellAt row 4)
  let ssa_state ← intCell penNA (cellAt row 5)
  let ssa_cnty ← intCell penNA (cellAt row 6)
  let ssa ← floatCell penNA (cellAt row 7)
  Except.ok
    { state := strCell penNA (cellAt row 0)
      county := strCell penNA (cellAt row 1)
      fips_state := fips_state
      fips_cnty := fips_cnty
      fips := fips
      ssa_state := ssa_state
      ssa_cnty := ssa_cnty
      ssa := ssa
      eligibles := penNumCell (cellAt row 8)
      enrolled := penNumCell (cellAt row 9)
      penetration := penNumCell (cellAt row 10) }

/-- `read_penetration` applied to the contents of an existing file. -/
def read_penetration_core (f : CsvFile) : Except String (List PenRow) :=
  (List.drop 1 f).mapM parsePenRow

/-- `read_penetration(path)`. -/
def read_penetration (fs : FS) (path : String) :
    Except String (List PenRow) :=
  match fs path with
  | none => Except.error (errnoMsg path)
  | some f => read_penetration_core f

/-- An output row of `load_month_pen`. -/
structure PenMonthRow where
  base : PenRow
  month : Int
  year : Int
deriving DecidableEq

/-- The path `load_month_pen` builds:
`f"../../ma-data/ma/penetration/Extracted Data/State_County_Penetration_MA_{y}_{m}.csv"`. -/
def penPath (m : String) (y : Int) : String :=
  "../../ma-data/ma/penetration/Extracted Data/State_County_Penetration_MA_"
    ++ toString y ++ "_" ++ m ++ ".csv"

/-- `load_month_pen(m, y)`: read the penetration file for the period (no
explicit existence check), then append `month = int(m)` and `year = y`. -/
def load_month_pen (fs : FS) (m : String) (y : Int) :
    Except String (List PenMonthRow) :=
  match read_penetration fs (penPath m y) with
  | Except.error e => Except.error e
  | Except.ok df =>
    match parseIntPy m with
    | none => Except.error ("invalid literal for int() with base 10: " ++ m)
    | some mi => Except.ok (df.map fun r => ⟨r, mi, y⟩)

/-- The group/sort/join key of `mapd_clean_merge`:
(contractid, planid, state, county). -/
def KeyT : Type := Option String × Option ℚ × Option String × Option String

instance : DecidableEq KeyT := by
  unfold KeyT
  infer_instance

/-- Comparison of rationals as an `Ordering`. -/
def cmpQ (a b : ℚ) : Ordering :=
  if a < b then Ordering.lt else if b < a then Ordering.gt else Ordering.eq

/-- Lift a comparison to `Option`, placing the absent marker last: pandas
`sort_values` sorts ascending with NaN in last position. -/
def cmpOpt {α : Type} (cmp : α → α → Ordering) :
    Option α → Option α → Ordering
  | none, none => Ordering.eq
  | none, some _ => Ordering.gt
  | some _, none => Ordering.lt
  | some a, some b => cmp a b

/-- Lexicographic comparison of the four-column sort key of
`sort_values(["contractid", "planid", "state", "county"])`. -/
def cmpKey (a b : KeyT) : Ordering :=
  (cmpOpt compare a.1 b.1).then
    ((cmpOpt cmpQ a.2.1 b.2.1).then
      ((cmpOpt compare a.2.2.1 b.2.2.1).then
        (cmpOpt compare a.2.2.2 b.2.2.2)))

/-- A key with at least one absent component: `groupby` (with its default
`dropna=True`) assigns rows with such keys to no group. -/
def hasNAK (k : KeyT) : Bool :=
  k.1.isNone || k.2.1.isNone || k.2.2.1.isNone || k.2.2.2.isNone

/-- Grouped forward fill,
`df.groupby(keys)[cols].ffill()` followed by assignment back into `df`:
scan the rows in order keeping, per group key, the latest filled value of
the filled columns; a row's absent entries are filled from that state and
the state is updated to the row's filled value.  Rows whose key contains an
absent component belong to no group; the transform result reindexed to the
original frame leaves NaN there, so the assignment writes `bot` (all
columns absent) into those rows, and they do not update any group state. -/
def ffillGo {α κ σ : Type} [DecidableEq κ] (isna : κ → Bool) (key : α → κ)
    (get : α → σ) (upd : α → σ → α) (combine : σ → σ → σ) (bot : σ)
    (seen : κ → σ) : List α → List α
  | [] => []
  | r :: rs =>
    if isna (key r) then
      upd r bot :: ffillGo isna key get upd combine bot seen rs
    else
      let v := combine (get r) (seen (key r))
      upd r v ::
        ffillGo isna key get upd combine bot
          (fun k2 => if k2 = key r then v else seen k2) rs

/-- Forward-fill combination for one column: keep the current value when
populated, otherwise take the last value seen in the group. -/
def combineQ : Option ℚ → Option ℚ → Option ℚ
  | some v, _ => some v
  | none, p => p

/-- A row of the MA-only premium table after the projection
`ma_data[["contractid", "planid", "state", "county", "premium"]]`. -/
structure MARow where
  contractid : Option String
  planid : Option ℚ
  state : Option String
  county : Option String
  premium : Option ℚ
deriving DecidableEq

/-- Key of an MA row. -/
def keyMA (r : MARow) : KeyT :=
  (r.contractid, r.planid, r.state, r.county)

/-- `ma_data.sort_values(["contractid", "planid", "state", "county"])`:
sort ascending by the key, NaN last. -/
def sortMA (xs : List MARow) : List MARow :=
  List.insertionSort
    (fun a b => cmpKey (keyMA a) (keyMA b) ≠ Ordering.gt) xs

/-- The grouped forward fill of the MA premium column. -/
def ffillMA (xs : List MARow) : List MARow :=
  ffillGo hasNAK keyMA (fun r => r.premium)
    (fun r v => { r with premium := v }) combineQ none (fun _ => none) xs

/-- The cleaned MA table: project (already reflected in `MARow`), sort,
forward fill within groups, drop duplicate keys keeping the first. -/
def maClean (xs : List MARow) : List MARow :=
  dedupFirst keyMA (ffillMA (sortMA xs))

/-- A row of the MA-PD premium table after the projection to its nine
relevant columns.  The plan id arrives inconsistently encoded as text
(hence `Option String`); `mapd_clean_merge` coerces it to numeric. -/
structure MAPDRow where
  contractid : Option String
  planid : Option String
  state : Option String
  county : Option String
  premium_partc : Option ℚ
  premium_partd_basic : Option ℚ
  premium_partd_supp : Option ℚ
  premium_partd_total : Option ℚ
  partd_deductible : Option ℚ
deriving DecidableEq

/-- An MA-PD row after
`mapd_data["planid"] = pd.to_numeric(mapd_data["planid"], errors="coerce")`. -/
structure MAPDCRow where
  contractid : Option String
  planid : Option ℚ
  state : Option String
  county : Option String
  premium_partc : Option ℚ
  premium_partd_basic : Option ℚ
  premium_partd_supp : Option ℚ
  premium_partd_total : Option ℚ
  partd_deductible : Option ℚ
deriving DecidableEq

/-- The plan-id coercion: an absent id stays absent, anything non-numeric
becomes absent rather than an error. -/
def coerceMAPDRow (r : MAPDRow) : MAPDCRow :=
  { contractid := r.contractid
    planid := r.planid.bind toNumericCoerce
    state := r.state
    county := r.county
    premium_partc := r.premium_partc
    premium_partd_basic := r.premium_partd_basic
    premium_partd_supp := r.premium_partd_supp
    premium_partd_total := r.premium_partd_total
    partd_deductible := r.partd_deductible }

/-- Key of a coerced MA-PD row. -/
def keyMAPD (r : MAPDCRow) : KeyT :=
  (r.contractid, r.planid, r.state, r.county)

/-- `mapd_data.sort_values(["contractid", "planid", "state", "county"])`. -/
def sortMAPD (xs : List MAPDCRow) : List MAPDCRow :=
  List.insertionSort
    (fun a b => cmpKey (keyMAPD a) (keyMAPD b) ≠ Ordering.gt) xs

/-- The tuple of the five filled MA-PD columns. -/
def PartDVals : Type :=
  Option ℚ × Option ℚ × Option ℚ × Option ℚ × Option ℚ

/-- Read the five filled columns of an MA-PD row. -/
def getPartD (r : MAPDCRow) : PartDVals :=
  (r.premium_partc, r.premium_partd_basic, r.premium_partd_supp,
   r.premium_partd_total, r.partd_deductible)

/-- Write the five filled columns of an MA-PD row. -/
def updPartD (r : MAPDCRow) (v : PartDVals) : MAPDCRow :=
  { r with
    premium_partc := v.1
    premium_partd_basic := v.2.1
    premium_partd_supp := v.2.2.1
    premium_partd_total := v.2.2.2.1
    partd_deductible := v.2.2.2.2 }

/-- Columnwise forward-fill combination of the five filled columns. -/
def combinePartD (c p : PartDVals) : PartDVals :=
  (combineQ c.1 p.1, combineQ c.2.1 p.2.1, combineQ c.2.2.1 p.2.2.1,
   combineQ c.2.2.2.1 p.2.2.2.1, combineQ c.2.2.2.2 p.2.2.2.2)

/-- All five filled columns absent. -/
def botPartD : PartDVals :=
  (none, none, none, none, none)

/-- The grouped forward fill of the five MA-PD premium/deductible
columns. -/
def ffillMAPD (xs : List MAPDCRow) : List MAPDCRow :=
  ffillGo hasNAK keyMAPD getPartD updPartD combinePartD botPartD
    (fun _ => botPartD) xs

/-- The cleaned MA-PD table: project (reflected in `MAPDRow`), coerce the
plan id, sort, forward fill within groups, drop duplicate keys keeping the
first. -/
def mapdClean (xs : List MAPDRow) : List MAPDCRow :=
  dedupFirst keyMAPD (ffillMAPD (sortMAPD (xs.map coerceMAPDRow)))

/-- A row of `ma_data.merge(mapd_data, on=["contractid", "planid", "state",
"county"], how="outer")`. -/
structure PremiumRow where
  contractid : Option String
  planid : Option ℚ
  state : Option String
  county : Option String
  premium : Option ℚ
  premium_partc : Option ℚ
  premium_partd_basic : Option ℚ
  premium_partd_supp : Option ℚ
  premium_partd_total : Option ℚ
  partd_deductible : Option ℚ
deriving DecidableEq

/-- Key of a merged premium row. -/
def premKey (p : PremiumRow) : KeyT :=
  (p.contractid, p.planid, p.state, p.county)

/-- A matched outer-merge row. -/
def premOfMatch (l : MARow) (r : MAPDCRow) : PremiumRow :=
  { contractid := l.contractid
    planid := l.planid
    state := l.state
    county := l.county
    premium := l.premium
    premium_partc := r.premium_partc
    premium_partd_basic := r.premium_partd_basic
    premium_partd_supp := r.premium_partd_supp
    premium_partd_total := r.premium_partd_total
    partd_deductible := r.partd_deductible }

/-- An outer-merge row for an MA key with no MA-PD match: the MA-PD columns
are absent. -/
def premOfLeft (l : MARow) : PremiumRow :=
  { contractid := l.contractid
    planid := l.planid
    state := l.state
    county := l.county
    premium := l.premium
    premium_partc := none
    premium_partd_basic := none
    premium_partd_supp := none
    premium_partd_total := none
    partd_deductible := none }

/-- An outer-merge row for an MA-PD key with no MA match: the MA premium
column is absent. -/
def premOfRight (r : MAPDCRow) : PremiumRow :=
  { contractid := r.contractid
    planid := r.planid
    state := r.state
    county := r.county
    premium := none
    premium_partc := r.premium_partc
    premium_partd_basic := r.premium_partd_basic
    premium_partd_supp := r.premium_partd_supp
    premium_partd_total := r.premium_partd_total
    partd_deductible := r.partd_deductible }

/-- pandas outer merge: the left-merge rows (every left row, matched against
every equal-keyed right row or NaN-padded), followed by the right rows whose
key matches no left row. -/
def outerMergePrem (ls : List MARow) (rs : List MAPDCRow) : List PremiumRow :=
  (ls.flatMap fun l =>
    match rs.filter (fun r => decide (keyMAPD r = keyMA l)) with
    | [] => [premOfLeft l]
    | ms => ms.map (premOfMatch l)) ++
  (rs.filter (fun r => ls.all (fun l => decide (keyMA l ≠ keyMAPD r)))).map
    premOfRight

/-- An output row of `mapd_clean_merge`: the merged row plus the appended
`year` column. -/
structure PremYRow where
  base : PremiumRow
  year : Int
deriving DecidableEq

/-- `mapd_clean_merge(ma_data, mapd_data, y)`: clean both tables, outer-join
them on (contractid, planid, state, county), stamp the year. -/
def mapd_clean_merge (ma_data : List MARow) (mapd_data : List MAPDRow)
    (y : Int) : List PremYRow :=
  (outerMergePrem (maClean ma_data) (mapdClean mapd_data)).map
    (fun r => ⟨r, y⟩)

/-- A pandas DataFrame value as it exists on the Python heap during
`mapd_clean_merge`, in each of the shapes the function manipulates. -/
inductive PdFrame where
  | ma : List MARow → PdFrame
  | mapd : List MAPDRow → PdFrame
  | mapdC : List MAPDCRow → PdFrame
  | prem : List PremiumRow → PdFrame
  | premY : List PremYRow → PdFrame
deriving DecidableEq

/-- The Python heap: frames addressed by allocation index. -/
abbrev Heap : Type := List PdFrame

/-- Read an MA frame from the heap (an absent or differently shaped frame
reads as empty; this never occurs on the calls we study). -/
def heapMA (h : Heap) (i : Nat) : List MARow :=
  match h[i]? with
  | some (PdFrame.ma t) => t
  | _ => []

/-- Read an MA-PD frame from the heap. -/
def heapMAPD (h : Heap) (i : Nat) : List MAPDRow :=
  match h[i]? with
  | some (PdFrame.mapd t) => t
  | _ => []

/-- Heap/reference model of `mapd_clean_merge(ma_data, mapd_data, y)`.
Each Python statement is rendered by its actual effect on the heap:
`df[[cols]].copy()`, `sort_values`, `drop_duplicates` and `merge` return
freshly allocated frames to which the local name is rebound, while the
column assignments (`ma_data["premium"] = ...`,
`mapd_data["planid"] = ...`, `mapd_data[fill_cols] = ...`,
`plan_premiums["year"] = y`) mutate the frame the local name currently
refers to, in place.  The caller's argument frames sit at `maRef` and
`mapdRef`; the result is the new heap and the reference to the returned
frame. -/
def mapd_clean_merge_heap (h : Heap) (maRef mapdRef : Nat) (y : Int) :
    Heap × Nat :=
  let maArg := heapMA h maRef
  let mapdArg := heapMAPD h mapdRef
  -- ma_data = ma_data[["contractid", ..., "premium"]].copy()
  let h1 := h ++ [PdFrame.ma maArg]
  -- ma_data = ma_data.sort_values([...])
  let maSorted := sortMA maArg
  let h2 := h1 ++ [PdFrame.ma maSorted]
  let a2 := h1.length
  -- ma_data["premium"] = ma_data.groupby([...])["premium"].ffill()
  let maFilled := ffillMA maSorted
  let h3 := h2.set a2 (PdFrame.ma maFilled)
  -- ma_data = ma_data.drop_duplicates(subset=[...], keep="first")
  let maDone := dedupFirst keyMA maFilled
  let h4 := h3 ++ [PdFrame.ma maDone]
  -- mapd_data = mapd_data[[...]].copy()
  let h5 := h4 ++ [PdFrame.mapd mapdArg]
  let b1 := h4.length
  -- mapd_data["planid"] = pd.to_numeric(mapd_data["planid"], errors="coerce")
  let mapdCoerced := mapdArg.map coerceMAPDRow
  let h6 := h5.set b1 (PdFrame.mapdC mapdCoerced)
  -- mapd_data = mapd_data.sort_values([...])
  let mapdSorted := sortMAPD mapdCoerced
  let h7 := h6 ++ [PdFrame.mapdC mapdSorted]
  let b2 := h6.length
  -- mapd_data[fill_cols] = mapd_data.groupby([...])[fill_cols].ffill()
  let mapdFilled := ffillMAPD mapdSorted
  let h8 := h7.set b2 (PdFrame.mapdC mapdFilled)
  -- mapd_data = mapd_data.drop_duplicates(subset=[...], keep="first")
  let mapdDone := dedupFirst keyMAPD mapdFilled
  let h9 := h8 ++ [PdFrame.mapdC mapdDone]
  -- plan_premiums = ma_data.merge(mapd_data, on=[...], how="outer")
  let merged := outerMergePrem maDone mapdDone
  let h10 := h9 ++ [PdFrame.prem merged]
  let c1 := h9.length
  -- plan_premiums["year"] = y
  let h11 := h10.set c1 (PdFrame.premY (merged.map (fun r => ⟨r, y⟩)))
  (h11, c1)

/-- The second heap extends the first: it is at least as long and agrees on
every index of the first. -/
def heapLe (h h2 : Heap) : Prop :=
  h.length ≤ h2.length ∧ ∀ j < h.length, h2[j]? = h[j]?

/-! ### Concrete fixtures for the evaluated statements -/

/-- A contract file whose dedup key (H1, 1) occurs twice and whose second
key (H2, 2) occurs once (header record first, as in every CMS extract). -/
def conFileA : CsvFile :=
  [["hdr"],
   ["H1", "1", "HMO", "Local", "Yes", "No", "No", "OrgA", "MktA", "PlanA",
    "ParentA", "2006-01-01"],
   ["H1", "1", "HMO", "Local", "Yes", "No", "No", "OrgA", "MktA", "PlanA2",
    "ParentA", "2006-01-01"],
   ["H2", "2", "PPO", "Local", "No", "No", "No", "OrgB", "MktB", "PlanB",
    "ParentB", "2007-01-01"]]

/-- An enrollment file with two records (two counties) for the key (H1, 1)
and none for (H2, 2). -/
def enrFileA : CsvFile :=
  [["hdr"],
   ["H1", "1", "100", "42001", "PA", "Adams", "50"],
   ["H1", "1", "110", "42011", "PA", "Berks", "60"]]

/-- A filesystem holding exactly the July 2010 contract and enrollment
files. -/
def fsA : FS := fun p =>
  if p = contractPath "07" 2010 then some conFileA
  else if p = enrollPath "07" 2010 then some enrFileA
  else none

/-- The empty filesystem. -/
def fsNone : FS := fun _ => none

/-- A filesystem holding only the July 2010 contract file. -/
def fsConOnly : FS := fun p =>
  if p = contractPath "07" 2010 then some conFileA else none

/-- The contract table parsed from `conFileA`. -/
def csA : List ContractRow :=
  (read_contract_core conFileA).toOption.getD []

/-- The enrollment table parsed from `enrFileA`. -/
def esA : List EnrollRow :=
  (read_enroll_core enrFileA).toOption.getD []

/-- The table `load_month` produces on `fsA` for July 2010. -/
def tA : List MonthRow :=
  (load_month fsA "07" 2010).toOption.getD []

/-- An arbitrary default row (for list indexing in closed statements). -/
def mrDefault : MonthRow :=
  { base :=
      { contract :=
          { contractid := none, planid := none, org_type := none,
            plan_type := none, partd := none, snp := none, eghp := none,
            org_name := none, org_marketing_name := none, plan_name := none,
            parent_org := none, contract_date := none },
        ssa := none, fips := none, state := none, county := none,
        enrollment := none },
    month := 0, year := 0 }

/-- The third output row of `load_month fsA "07" 2010`: the (H2, 2)
contract record, which has no matching enrollment record. -/
def rA : MonthRow :=
  tA.getD 2 mrDefault

/-- A contract file carrying the sentinel strings in its string columns:
org_type is `*`, plan_type is `-`, partd is `--`, snp is `NA`, eghp is
empty. -/
def conFileStar : CsvFile :=
  [["hdr"],
   ["H1", "1", "*", "-", "--", "NA", "", "x", "y", "z", "p", "2006-01-01"]]

/-- An enrollment file whose state is `-`, county is `--` and enrollment
count is `*`. -/
def enrFileSent : CsvFile :=
  [["hdr"],
   ["H1", "1", "100", "42001", "-", "--", "*"]]

/-- A service-area file whose county is `-`, state is `--` and notes is
`*`. -/
def saFileSent : CsvFile :=
  [["hdr"],
   ["H9", "OrgC", "HMO", "Local", "TRUE", "No", "100", "42001", "-", "--",
    "*"]]

/-- A penetration file exercising all five sentinels of the spec in the two
string columns. -/
def penFileSent : CsvFile :=
  [["hdr"],
   ["*", "-", "1", "2", "3", "4", "5", "6", "7", "8", "9"],
   ["--", "NA", "1", "2", "3", "4", "5", "6", "7", "8", "9"],
   ["", "OK", "1", "2", "3", "4", "5", "6", "7", "8", "9"]]

/-- A penetration file whose numeric-text columns hold a comma/percent
formatted number, a plain number and an unparseable string. -/
def penFileNum : CsvFile :=
  [["hdr"],
   ["PA", "Adams", "1", "2", "3", "4", "5", "6", "1,234%", "1234", "n/a"]]

/-- A service-area file whose partial-coverage column holds `TRUE`, `FALSE`,
`True` and `*`. -/
def saFileBool : CsvFile :=
  [["hdr"],
   ["H1", "O", "HMO", "L", "TRUE", "N", "1", "2", "C", "S", ""],
   ["H2", "O", "HMO", "L", "FALSE", "N", "1", "2", "C", "S", ""],
   ["H3", "O", "HMO", "L", "True", "N", "1", "2", "C", "S", ""],
   ["H4", "O", "HMO", "L", "*", "N", "1", "2", "C", "S", ""]]

/-- An MA premium table with two records of one group key: the first (in
sort order) has an absent premium, the second a populated one. -/
def cexMA : List MARow :=
  [{ contractid := some "H1", planid := some 1, state := some "PA",
     county := some "Bucks", premium := none },
   { contractid := some "H1", planid := some 1, state := some "PA",
     county := some "Bucks", premium := some 10 }]

/-- A two-frame heap holding an MA table and an MA-PD table. -/
def heap0 : Heap :=
  [PdFrame.ma cexMA, PdFrame.mapd []]

/-! ### General lemmas about deduplication -/

/-- A record surviving the dedup scan occurs in the input and its key was
not among the already seen keys. -/
theorem mem_dedupFirstAux {α κ : Type} [DecidableEq κ] {key : α → κ}
    {r : α} : ∀ {xs : List α} {seen : List κ},
    r ∈ dedupFirstAux key seen xs → r ∈ xs ∧ key r ∉ seen := by
  intro xs
  induction xs with
  | nil => intro seen h; simp [dedupFirstAux] at h
  | cons x xs ih =>
    intro seen h
    simp only [dedupFirstAux] at h
    by_cases hx : key x ∈ seen
    · rw [if_pos hx] at h
      rcases ih h with ⟨h1, h2⟩
      exact ⟨List.mem_cons_of_mem _ h1, h2⟩
    · rw [if_neg hx] at h
      rcases List.mem_cons.mp h with rfl | h
      · exact ⟨List.mem_cons_self _ _, hx⟩
      · rcases ih h with ⟨h1, h2⟩
        refine ⟨List.mem_cons_of_mem _ h1, fun hc => h2 ?_⟩
        exact List.mem_cons_of_mem _ hc

/-- The dedup scan yields records with pairwise distinct keys. -/
theorem dedupFirstAux_pairwise {α κ : Type} [DecidableEq κ] (key : α → κ) :
    ∀ (xs : List α) (seen : List κ),
    (dedupFirstAux key seen xs).Pairwise (fun a b => key a ≠ key b) := by
  intro xs
  induction xs with
  | nil => intro seen; simp [dedupFirstAux]
  | cons x xs ih =>
    intro seen
    simp only [dedupFirstAux]
    by_cases hx : key x ∈ seen
    · rw [if_pos hx]; exact ih seen
    · rw [if_neg hx]
      refine List.pairwise_cons.mpr ⟨?_, ih (key x :: seen)⟩
      intro b hb he
      have := (mem_dedupFirstAux hb).2
      exact this (he ▸ List.mem_cons_self _ _)

/-- Deduplication keeps records with pairwise distinct keys. -/
theorem dedupFirst_pairwise {α κ : Type} [DecidableEq κ] (key : α → κ)
    (xs : List α) :
    (dedupFirst key xs).Pairwise (fun a b => key a ≠ key b) :=
  dedupFirstAux_pairwise key xs []

/-- The dedup scan is idempotent for any starting set of seen keys. -/
theorem dedupFirstAux_idem {α κ : Type} [DecidableEq κ] (key : α → κ) :
    ∀ (xs : List α) (seen : List κ),
    dedupFirstAux key seen (dedupFirstAux key seen xs)
      = dedupFirstAux key seen xs := by
  intro xs
  induction xs with
  | nil => intro seen; simp [dedupFirstAux]
  | cons x xs ih =>
    intro seen
    by_cases hx : key x ∈ seen
    · simp only [dedupFirstAux, if_pos hx, ih]
    · simp only [dedupFirstAux, if_neg hx, ih]

/-! ### General lemmas about the grouped forward fill -/

/-- Dedup-keep-first after a grouped forward fill: the surviving record of
every group is the group's first record, whose filled value combines its own
value with whatever the fill state already held for its key; records whose
key has an absent component are overwritten with the all-absent value.  In
particular (fill state empty, key fully populated) the surviving record is
unchanged: a populated value occurring later in a group never reaches the
group's surviving first record. -/
theorem dedupFirstAux_ffillGo {α κ σ : Type} [DecidableEq κ]
    (isna : κ → Bool) (key : α → κ) (get : α → σ) (upd : α → σ → α)
    (combine : σ → σ → σ) (bot : σ)
    (hkey : ∀ r v, key (upd r v) = key r) :
    ∀ (xs : List α) (s : κ → σ) (seen : List κ),
    dedupFirstAux key seen (ffillGo isna key get upd combine bot s xs)
      = (dedupFirstAux key seen xs).map
          (fun r => if isna (key r) then upd r bot
                    else upd r (combine (get r) (s (key r)))) := by
  intro xs
  induction xs with
  | nil => intro s seen; simp [ffillGo, dedupFirstAux]
  | cons x xs ih =>
    intro s seen
    simp only [ffillGo]
    by_cases hna : isna (key x) = true
    · rw [if_pos hna]
      simp only [dedupFirstAux, hkey]
      by_cases hx : key x ∈ seen
      · rw [if_pos hx, if_pos hx, ih]
      · rw [if_neg hx, if_neg hx]
        simp only [List.map_cons, if_pos hna, ih]
    · rw [if_neg hna]
      simp only [dedupFirstAux, hkey]
      by_cases hx : key x ∈ seen
      · rw [if_pos hx, if_pos hx, ih]
        refine List.map_congr_left ?_
        intro r hr
        have hrk : key r ∉ seen := (mem_dedupFirstAux hr).2
        have hne : key r ≠ key x := fun he => hrk (he ▸ hx)
        simp [if_neg hne]
      · rw [if_neg hx, if_neg hx]
        simp only [List.map_cons, if_neg hna, if_pos rfl, ih]
        refine congrArg _ ?_
        refine List.map_congr_left ?_
        intro r hr
        have hrk : key r ∉ key x :: seen := (mem_dedupFirstAux hr).2
        have hne : key r ≠ key x := fun he => hrk (he ▸ List.mem_cons_self _ _)
        simp [if_neg hne]

/-- Combining with an empty fill state keeps the current value. -/
theorem combineQ_none (o : Option ℚ) : combineQ o none = o := by
  cases o <;> rfl

/-- Rewriting the premium of an MA row to its own value is the identity. -/
theorem updPremium_self (r : MARow) :
    ({ r with premium := combineQ r.premium none }) = r := by
  cases r with
  | mk a b c d p => cases p <;> rfl

/-! ### Counting lemmas for the joins -/

/-- The row count of the left merge: each (deduplicated) left record
contributes one row per matching right record, and one NaN-padded row when
nothing matches. -/
theorem leftMergeCE_length (cs : List ContractRow) (es : List EnrollRow) :
    (leftMergeCE cs es).length
      = (cs.map (fun c =>
          max 1 (es.countP (fun e => decide (keyE e = keyCP c))))).sum := by
  induction cs with
  | nil => rfl
  | cons c cs ih =>
    simp only [leftMergeCE, List.flatMap_cons, List.length_append,
      List.map_cons, List.sum_cons] at *
    rw [ih, List.countP_eq_length_filter]
    cases hm : es.filter (fun e => decide (keyE e = keyCP c)) with
    | nil => simp [hm]
    | cons m ms =>
      simp only [hm, List.length_map, List.length_cons]
      rw [Nat.max_eq_right (Nat.succ_le_succ (Nat.zero_le _))]

/-- Counting over a flatMap is the sum of the counts. -/
theorem countP_flatMap {α β : Type} (p : β → Bool) (f : α → List β) :
    ∀ xs : List α,
    ((xs.flatMap f).countP p) = (xs.map fun x => (f x).countP p).sum := by
  intro xs
  induction xs with
  | nil => rfl
  | cons x xs ih =>
    simp only [List.flatMap_cons, List.countP_append, List.map_cons,
      List.sum_cons, ih]

/-- The sum of an indicator over a list is a count. -/
theorem sum_map_ite {α : Type} (p : α → Bool) :
    ∀ xs : List α,
    (xs.map fun x => if p x then 1 else 0).sum = xs.countP p := by
  intro xs
  induction xs with
  | nil => rfl
  | cons x xs ih =>
    simp only [List.map_cons, List.sum_cons, List.countP_cons, ih]
    by_cases hx : p x <;> simp [hx, Nat.add_comm]

/-- In a list with pairwise distinct keys, each key value is carried by
exactly one record when present and none otherwise. -/
theorem countP_key_pairwise {α κ : Type} [DecidableEq κ] (key : α → κ) :
    ∀ (xs : List α), xs.Pairwise (fun a b => key a ≠ key b) → ∀ k : κ,
    xs.countP (fun r => decide (key r = k))
      = if k ∈ xs.map key then 1 else 0 := by
  intro xs
  induction xs with
  | nil => intro _ k; rfl
  | cons x xs ih =>
    intro h k
    rcases List.pairwise_cons.mp h with ⟨h1, h2⟩
    rw [List.countP_cons]
    by_cases hk : key x = k
    · subst hk
      have hz : xs.countP (fun r => decide (key r = key x)) = 0 := by
        refine List.countP_eq_zero.mpr ?_
        intro a ha
        simpa using fun he => (h1 a ha) he.symm
      simp [hz]
    · have hmem : (k ∈ key x :: xs.map key) ↔ k ∈ xs.map key := by
        constructor
        · intro hm
          rcases List.mem_cons.mp hm with he | hm
          · exact absurd he.symm hk
          · exact hm
        · exact List.mem_cons_of_mem _
      simp only [List.map_cons, hmem, decide_eq_true_eq, hk, if_false,
        Nat.add_zero]
      exact ih h2 k

/-! ### Heap lemmas -/

/-- Heap extension is reflexive. -/
theorem heapLe_refl (h : Heap) : heapLe h h :=
  ⟨Nat.le_refl _, fun _ _ => rfl⟩

/-- Allocating a fresh frame preserves all existing frames. -/
theorem heapLe_append {h h2 : Heap} (x : PdFrame) (hle : heapLe h h2) :
    heapLe h (h2 ++ [x]) := by
  refine ⟨?_, ?_⟩
  · calc h.length ≤ h2.length := hle.1
      _ ≤ (h2 ++ [x]).length := by simp [List.length_append]
  · intro j hj
    rw [List.getElem?_append_left (Nat.lt_of_lt_of_le hj hle.1)]
    exact hle.2 j hj

/-- Writing in place at an index beyond the original heap preserves all
original frames. -/
theorem heapLe_write {h h2 : Heap} {k : Nat} (hk : h.length ≤ k)
    (v : PdFrame) (hle : heapLe h h2) : heapLe h (h2.set k v) := by
  refine ⟨by simpa [List.length_set] using hle.1, ?_⟩
  intro j hj
  rw [List.getElem?_set]
  rw [if_neg (by omega : ¬ k = j)]
  exact hle.2 j hj

/-! ### Claim theorems -/

/-- C8: deduplication keeping the first occurrence is idempotent — applying
it a second time to its own output yields the same table, for the contract
table deduplicated on (contractid, planid) in `load_month` and for both
premium tables deduplicated on (contractid, planid, state, county) in
`mapd_clean_merge`. -/
theorem c8_dedup_idempotent :
    (∀ cs : List ContractRow,
      dedupFirst keyCP (dedupFirst keyCP cs) = dedupFirst keyCP cs) ∧
    (∀ ms : List MARow,
      dedupFirst keyMA (dedupFirst keyMA ms) = dedupFirst keyMA ms) ∧
    (∀ ds : List MAPDCRow,
      dedupFirst keyMAPD (dedupFirst keyMAPD ds) = dedupFirst keyMAPD ds) :=
  ⟨fun cs => dedupFirstAux_idem keyCP cs [],
   fun ms => dedupFirstAux_idem keyMA ms [],
   fun ds => dedupFirstAux_idem keyMAPD ds []⟩

/-- C6: the penetration reader's numeric-text pipeline strips commas and
percent signs before coercion, so `"1,234%"` and `"1234"` parse to the same
value 1234; a string that is still unparseable after stripping (and is not
an NA sentinel already) yields the absent marker rather than an error, as
does the sentinel `"n/a"`; the pipeline is what `read_penetration` applies
to the eligibles/enrolled/penetration columns. -/
theorem c6_pen_numeric_parse :
    penNumCell "1,234%" = penNumCell "1234" ∧
    penNumCell "1234" = some 1234 ∧
    penNumCell "n/a" = none ∧
    (∀ s : String,
      parseFloat (removePct (removeCommas s)) = none → penNumCell s = none) ∧
    (read_penetration_core penFileNum).map
        (fun rs => rs.map (fun r => (r.eligibles, r.enrolled, r.penetration)))
      = Except.ok [(some 1234, some 1234, none)] := by
  refine ⟨by decide, by decide, by decide, ?_, by decide⟩
  intro s h
  unfold penNumCell toNumericCoerce
  by_cases hs : s ∈ penNA
  · simp only [applyNA, if_pos hs, astypeStr]
    decide
  · simp only [applyNA, if_neg hs, astypeStr]
    exact h

/-- C6 witness: a concrete unparseable string yields the absent marker. -/
theorem c6_pen_numeric_parse_witness :
    parseFloat (removePct (removeCommas "abc")) = none ∧
    penNumCell "abc" = none :=
  ⟨by decide, c6_pen_numeric_parse.2.2.2.1 "abc" (by decide)⟩

/-- C7: the service-area partial-coverage field parses the literal `"TRUE"`
to true and `"FALSE"` to false, case-sensitively; every other string
literal (NA sentinels included) yields the absent boolean without an error;
the mapping dictionary also accepts native booleans; `read_service_area`
applies exactly this cell function. -/
theorem c7_sa_partial_bool :
    saPartialCell "TRUE" = some true ∧
    saPartialCell "FALSE" = some false ∧
    (∀ s : String, s ≠ "TRUE" → s ≠ "FALSE" → saPartialCell s = none) ∧
    partialDict (some (PyScalar.b true)) = some true ∧
    partialDict (some (PyScalar.b false)) = some false ∧
    partialDict none = none ∧
    (read_service_area_core saFileBool).map
        (fun rs => rs.map (fun r => r.partialCoverage))
      = Except.ok [some true, some false, none, none] := by
  refine ⟨by decide, by decide, ?_, by decide, by decide, by decide,
    by decide⟩
  intro s h1 h2
  unfold saPartialCell
  by_cases hs : s ∈ saNA
  · simp [applyNA, hs, partialDict]
  · simp [applyNA, hs, partialDict, h1, h2]

/-- C7 witness: the lowercase variant `"True"` yields the absent boolean. -/
theorem c7_sa_partial_bool_witness : saPartialCell "True" = none :=
  c7_sa_partial_bool.2.2.1 "True" (by decide) (by decide)

/-- C2 counterexample: on a group whose first sorted row has an absent
premium and whose second row has premium 10, `mapd_clean_merge` keeps the
first row with its premium still absent — the populated value does not
propagate backward, contrary to the claim. -/
theorem c2_ffill_backward_cex :
    mapd_clean_merge cexMA [] 2010
      = [⟨⟨some "H1", some 1, some "PA", some "Bucks", none, none, none,
           none, none, none⟩, 2010⟩] := by
  decide

/-- C2 (amended): the fill-then-deduplicate step keeps each group's first
row in sort order with its premium unchanged (forward fill propagates
populated values only to later rows, so the survivor gains nothing), except
that rows whose key has an absent component are assigned an absent premium
by the grouped transform; in the claim's scenario the surviving row's
premium therefore stays absent, not the later row's populated value. -/
theorem c2_ffill_dedup_keeps_first :
    ∀ xs : List MARow,
    maClean xs
      = (dedupFirst keyMA (sortMA xs)).map
          (fun r => if hasNAK (keyMA r) then { r with premium := none }
                    else r) := by
  intro xs
  unfold maClean ffillMA dedupFirst
  rw [dedupFirstAux_ffillGo hasNAK keyMA (fun r => r.premium)
    (fun r v => { r with premium := v }) combineQ none (fun r v => rfl)]
  refine List.map_congr_left ?_
  intro r _
  by_cases h : hasNAK (keyMA r) <;> simp [h, updPremium_self]

/-- C4 counterexample: in the contract reader the sentinel `*` is not
converted to the absent marker — it survives as the raw string in the
output table's org_type column. -/
theorem c4_sentinel_cex :
    (read_contract_core conFileStar).map
        (fun cs => cs.map fun c => c.org_type)
      = Except.ok [some "*"] := by
  decide

/-- C4 (amended): every reader converts the pandas default sentinels (among
them the empty string and `NA`); the penetration reader additionally
converts `*`, `-` and `--`; the enrollment and service-area readers
additionally convert `*` but keep `-` and `--` as raw strings; the contract
reader keeps `*`, `-` and `--` as raw strings. -/
theorem c4_sentinels_amended :
    ((read_penetration_core penFileSent).map
        (fun rs => rs.map (fun r => (r.state, r.county)))
      = Except.ok [(none, none), (none, none), (none, some "OK")]) ∧
    ((read_contract_core conFileStar).map
        (fun cs => cs.map (fun c =>
          [c.org_type, c.plan_type, c.partd, c.snp, c.eghp]))
      = Except.ok [[some "*", some "-", some "--", none, none]]) ∧
    ((read_enroll_core enrFileSent).map
        (fun rs => rs.map (fun r => (r.state, r.county, r.enrollment)))
      = Except.ok [(some "-", some "--", none)]) ∧
    ((read_service_area_core saFileSent).map
        (fun rs => rs.map (fun r => (r.county, r.state, r.notes)))
      = Except.ok [(some "-", some "--", none)]) :=
  ⟨by decide, by decide, by decide, by decide⟩

/-- C3: each monthly loader, asked for a period whose input file is absent,
fails with a missing-file error naming the exact expected path, before any
record is parsed.  `load_month` checks both paths explicitly (contract
first); for the service-area and penetration loaders the error is the
file-open error of the CSV read, which also names the path and precedes
parsing.  In particular, when the contract file exists but the enrollment
file does not, `load_month` names the enrollment path. -/
theorem c3_missing_file_errors :
    ∀ (fs : FS) (m : String) (y : Int),
    (fs (contractPath m y) = none →
      load_month fs m y
        = Except.error ("Missing contract file: " ++ contractPath m y)) ∧
    (∀ cf, fs (contractPath m y) = some cf → fs (enrollPath m y) = none →
      load_month fs m y
        = Except.error ("Missing enrollment file: " ++ enrollPath m y)) ∧
    (fs (saPath m y) = none →
      load_month_sa fs m y = Except.error (errnoMsg (saPath m y))) ∧
    (fs (penPath m y) = none →
      load_month_pen fs m y = Except.error (errnoMsg (penPath m y))) := by
  intro fs m y
  refine ⟨?_, ?_, ?_, ?_⟩
  · intro h
    simp [load_month, h]
  · intro cf h1 h2
    simp [load_month, h1, h2]
  · intro h
    simp [load_month_sa, read_service_area, h]
  · intro h
    simp [load_month_pen, read_penetration, h]

/-- C3 witness: the four missing-file scenarios on concrete filesystems. -/
theorem c3_missing_file_errors_witness :
    load_month fsNone "07" 2010
      = Except.error ("Missing contract file: " ++ contractPath "07" 2010) ∧
    load_month fsConOnly "07" 2010
      = Except.error ("Missing enrollment file: " ++ enrollPath "07" 2010) ∧
    load_month_sa fsNone "07" 2010
      = Except.error (errnoMsg (saPath "07" 2010)) ∧
    load_month_pen fsNone "07" 2010
      = Except.error (errnoMsg (penPath "07" 2010)) :=
  ⟨(c3_missing_file_errors fsNone "07" 2010).1 rfl,
   (c3_missing_file_errors fsConOnly "07" 2010).2.1 conFileA (by decide)
     (by decide),
   (c3_missing_file_errors fsNone "07" 2010).2.2.1 rfl,
   (c3_missing_file_errors fsNone "07" 2010).2.2.2 rfl⟩

/-- C9: every row of a successful `load_month` result carries the integer
value of the requested month string and the requested year, matched and
unmatched contract rows alike. -/
theorem c9_month_year_stamp (fs : FS) (m : String) (y : Int)
    (t : List MonthRow) (h : load_month fs m y = Except.ok t) :
    ∀ r ∈ t, some r.month = parseIntPy m ∧ r.year = y := by
  intro r hr
  unfold load_month at h
  cases hc : fs (contractPath m y) with
  | none => simp only [hc] at h; exact Except.noConfusion h
  | some cf =>
    simp only [hc] at h
    cases he : fs (enrollPath m y) with
    | none => simp only [he] at h; exact Except.noConfusion h
    | some ef =>
      simp only [he] at h
      cases hcs : read_contract_core cf with
      | error e => simp only [hcs] at h; exact Except.noConfusion h
      | ok cs =>
        simp only [hcs] at h
        cases hes : read_enroll_core ef with
        | error e => simp only [hes] at h; exact Except.noConfusion h
        | ok es =>
          simp only [hes] at h
          cases hm : parseIntPy m with
          | none => simp only [hm] at h; exact Except.noConfusion h
          | some mi =>
            simp only [hm, Except.ok.injEq] at h
            subst h
            rcases List.mem_map.mp hr with ⟨b, _, rfl⟩
            exact ⟨rfl, rfl⟩

/-- C9 witness: the third output row on the concrete filesystem — the
contract with no matching enrollment record — is stamped (7, 2010). -/
theorem c9_month_year_stamp_witness :
    some rA.month = parseIntPy "07" ∧ rA.year = 2010 :=
  c9_month_year_stamp fsA "07" 2010 tA (by decide) rA (by decide)

/-- C1 (amended): on a valid file pair the left join never drops a
deduplicated contract row — one with no enrollment match appears exactly
once, with the enrollment fields absent — but a contract key matched by
several enrollment records (one per county) yields one output row per
match, so the output row count is the sum over deduplicated contract rows
of max 1 (number of matching enrollment rows), which exceeds the
deduplicated contract row count whenever some key has two or more
matches. -/
theorem c1_left_join_rowcount (fs : FS) (m : String) (y : Int)
    (cf ef : CsvFile) (cs : List ContractRow) (es : List EnrollRow)
    (mi : Int)
    (hc : fs (contractPath m y) = some cf)
    (he : fs (enrollPath m y) = some ef)
    (hcs : read_contract_core cf = Except.ok cs)
    (hes : read_enroll_core ef = Except.ok es)
    (hm : parseIntPy m = some mi) :
    ∃ t, load_month fs m y = Except.ok t ∧
      t.length = ((dedupFirst keyCP cs).map
        (fun c => max 1 (es.countP (fun e => decide (keyE e = keyCP c))))).sum ∧
      ∀ c ∈ dedupFirst keyCP cs,
        es.countP (fun e => decide (keyE e = keyCP c)) = 0 →
          (⟨ceNone c, mi, y⟩ : MonthRow)
            ∈ t := by
  refine ⟨(leftMergeCE (dedupFirst keyCP cs) es).map (fun r => ⟨r, mi, y⟩),
    ?_, ?_, ?_⟩
  · simp only [load_month, hc, he, hcs, hes, hm]
  · rw [List.length_map, leftMergeCE_length]
  · intro c hcmem hcount
    have hfil : es.filter (fun e => decide (keyE e = keyCP c)) = [] := by
      rw [List.countP_eq_length_filter] at hcount
      exact List.length_eq_zero.mp hcount
    refine List.mem_map.mpr ⟨ceNone c, ?_, rfl⟩
    unfold leftMergeCE
    refine List.mem_flatMap.mpr ⟨c, hcmem, ?_⟩
    rw [hfil]
    exact List.mem_singleton.mpr rfl

/-- C1 witness: on the concrete file pair (one contract key duplicated in
the contract file, one key with two county-level enrollment records, one
key with none) the row-count formula and the unmatched-row membership
hold. -/
theorem c1_left_join_rowcount_witness :
    ∃ t, load_month fsA "07" 2010 = Except.ok t ∧
      t.length = ((dedupFirst keyCP csA).map
        (fun c => max 1 (esA.countP (fun e => decide (keyE e = keyCP c))))).sum ∧
      ∀ c ∈ dedupFirst keyCP csA,
        esA.countP (fun e => decide (keyE e = keyCP c)) = 0 →
          (⟨ceNone c, 7, 2010⟩ : MonthRow) ∈ t :=
  c1_left_join_rowcount fsA "07" 2010 conFileA enrFileA csA esA 7
    (by decide) (by decide) (by decide) (by decide) (by decide)

/-- C1 counterexample: on a valid file pair whose enrollment table holds two
county records for one contract key, the output has 3 rows while the
deduplicated contract table has 2 — the left join duplicates that contract
row, contradicting the claimed row-count equality. -/
theorem c1_left_join_rowcount_cex :
    ¬ ((load_month fsA "07" 2010).map List.length
        = (read_contract_core conFileA).map
            (fun cs => (dedupFirst keyCP cs).length)) := by
  decide

/-- The key of a matched outer-merge row is the left row's key. -/
theorem premKey_premOfMatch (l : MARow) (r : MAPDCRow) :
    premKey (premOfMatch l r) = keyMA l := rfl

/-- The key of a left-only outer-merge row is the left row's key. -/
theorem premKey_premOfLeft (l : MARow) :
    premKey (premOfLeft l) = keyMA l := rfl

/-- The key of a right-only outer-merge row is the right row's key. -/
theorem premKey_premOfRight (r : MAPDCRow) :
    premKey (premOfRight r) = keyMAPD r := rfl

/-- Each left row contributes to the outer merge exactly one row carrying
its own key, provided the right table has pairwise distinct keys. -/
theorem countP_outerMerge_left (rs : List MAPDCRow)
    (hr : rs.Pairwise (fun a b => keyMAPD a ≠ keyMAPD b))
    (k : KeyT) (l : MARow) :
    ((match rs.filter (fun r => decide (keyMAPD r = keyMA l)) with
      | [] => [premOfLeft l]
      | ms => ms.map (premOfMatch l)).countP
        (fun p => decide (premKey p = k)))
      = if keyMA l = k then 1 else 0 := by
  cases hm : rs.filter (fun r => decide (keyMAPD r = keyMA l)) with
  | nil =>
    simp [List.countP_cons, premKey_premOfLeft]
  | cons mm ms =>
    rw [List.countP_map]
    by_cases hk : keyMA l = k
    · rw [if_pos hk]
      have hall : (mm :: ms).countP
          ((fun p => decide (premKey p = k)) ∘ premOfMatch l)
          = (mm :: ms).length := by
        refine List.countP_eq_length.mpr ?_
        intro a _
        simp [premKey_premOfMatch, hk]
      rw [hall]
      have hmm : keyMA l ∈ rs.map keyMAPD := by
        have : mm ∈ rs.filter (fun r => decide (keyMAPD r = keyMA l)) := by
          rw [hm]; exact List.mem_cons_self _ _
        rcases List.mem_filter.mp this with ⟨hmem, hp⟩
        simp only [decide_eq_true_eq] at hp
        exact List.mem_map.mpr ⟨mm, hmem, hp⟩
      have : rs.countP (fun r => decide (keyMAPD r = keyMA l)) = 1 := by
        rw [countP_key_pairwise keyMAPD rs hr (keyMA l), if_pos hmm]
      rw [List.countP_eq_length_filter, hm] at this
      exact this
    · rw [if_neg hk]
      refine List.countP_eq_zero.mpr ?_
      intro a _
      simp [premKey_premOfMatch, hk]

/-- In the outer merge of two tables with pairwise distinct keys, each key
present in either table is carried by exactly one output row, and no other
key occurs. -/
theorem countP_outerMergePrem (ls : List MARow) (rs : List MAPDCRow)
    (hl : ls.Pairwise (fun a b => keyMA a ≠ keyMA b))
    (hr : rs.Pairwise (fun a b => keyMAPD a ≠ keyMAPD b)) (k : KeyT) :
    (outerMergePrem ls rs).countP (fun p => decide (premKey p = k))
      = if k ∈ ls.map keyMA ∨ k ∈ rs.map keyMAPD then 1 else 0 := by
  unfold outerMergePrem
  rw [List.countP_append]
  have hleft : (ls.flatMap fun l =>
      match rs.filter (fun r => decide (keyMAPD r = keyMA l)) with
      | [] => [premOfLeft l]
      | ms => ms.map (premOfMatch l)).countP (fun p => decide (premKey p = k))
      = if k ∈ ls.map keyMA then 1 else 0 := by
    rw [countP_flatMap]
    have hcg : ls.map (fun l =>
        ((match rs.filter (fun r => decide (keyMAPD r = keyMA l)) with
          | [] => [premOfLeft l]
          | ms => ms.map (premOfMatch l)).countP
            (fun p => decide (premKey p = k))))
        = ls.map (fun l => if decide (keyMA l = k) then 1 else 0) := by
      refine List.map_congr_left ?_
      intro l _
      rw [countP_outerMerge_left rs hr k l]
      by_cases hk : keyMA l = k <;> simp [hk]
    rw [hcg, sum_map_ite (fun l => decide (keyMA l = k)) ls]
    exact countP_key_pairwise keyMA ls hl k
  have hright : ((rs.filter
        (fun r => ls.all (fun l => decide (keyMA l ≠ keyMAPD r)))).map
          premOfRight).countP (fun p => decide (premKey p = k))
      = if k ∈ rs.map keyMAPD ∧ k ∉ ls.map keyMA then 1 else 0 := by
    rw [List.countP_map, List.countP_filter]
    by_cases hks : k ∈ ls.map keyMA
    · have hz : rs.countP (fun r =>
          ((fun p => decide (premKey p = k)) ∘ premOfRight) r
            && ls.all (fun l => decide (keyMA l ≠ keyMAPD r))) = 0 := by
        refine List.countP_eq_zero.mpr ?_
        intro r _ hcontr
        rw [Bool.and_eq_true] at hcontr
        rcases hcontr with ⟨h1, h2⟩
        rw [Function.comp_apply, premKey_premOfRight, decide_eq_true_eq] at h1
        rcases List.mem_map.mp hks with ⟨l, hlmem, hlk⟩
        have := List.all_eq_true.mp h2 l hlmem
        rw [decide_eq_true_eq] at this
        exact this (hlk.trans h1.symm)
      rw [hz, if_neg]
      simp [hks]
    · have hcg : rs.countP (fun r =>
          ((fun p => decide (premKey p = k)) ∘ premOfRight) r
            && ls.all (fun l => decide (keyMA l ≠ keyMAPD r)))
          = rs.countP (fun r => decide (keyMAPD r = k)) := by
        refine List.countP_congr ?_
        intro r _
        constructor
        · intro hcontr
          rw [Bool.and_eq_true] at hcontr
          rcases hcontr with ⟨h1, _⟩
          rw [Function.comp_apply, premKey_premOfRight] at h1
          exact h1
        · intro h1
          rw [Bool.and_eq_true]
          refine ⟨?_, ?_⟩
          · rw [Function.comp_apply, premKey_premOfRight]
            exact h1
          · refine List.all_eq_true.mpr ?_
            intro l hlmem
            rw [decide_eq_true_eq] at h1 ⊢
            intro hcontra
            exact hks (List.mem_map.mpr ⟨l, hlmem, hcontra.trans h1⟩)
      rw [hcg, countP_key_pairwise keyMAPD rs hr k]
      by_cases h2 : k ∈ rs.map keyMAPD <;> simp [h2, hks]
  rw [hleft, hright]
  by_cases h1 : k ∈ ls.map keyMA <;> by_cases h2 : k ∈ rs.map keyMAPD <;>
    simp [h1, h2]

/-- C5: in the output of `mapd_clean_merge`, every (contractid, planid,
state, county) combination present in either cleaned input table appears in
exactly one row (keys present in only one source included), and no other
key appears at all — the outer join neither drops nor duplicates keys of
the deduplicated tables. -/
theorem c5_outer_join_exactly_once (ma : List MARow) (mapd : List MAPDRow)
    (y : Int) (k : KeyT) :
    (mapd_clean_merge ma mapd y).countP
        (fun r => decide (premKey r.base = k))
      = if k ∈ (maClean ma).map keyMA ∨ k ∈ (mapdClean mapd).map keyMAPD
        then 1 else 0 := by
  unfold mapd_clean_merge
  rw [List.countP_map]
  have hcomp : ((fun r : PremYRow => decide (premKey r.base = k))
      ∘ fun r : PremiumRow => ⟨r, y⟩) = fun p => decide (premKey p = k) := rfl
  rw [hcomp]
  exact countP_outerMergePrem (maClean ma) (mapdClean mapd)
    (dedupFirstAux_pairwise keyMA (ffillMA (sortMA ma)) [])
    (dedupFirstAux_pairwise keyMAPD
      (ffillMAPD (sortMAPD (mapd.map coerceMAPDRow))) []) k

/-- C10: `mapd_clean_merge` leaves both argument frames untouched — every
frame of the original heap is unchanged after the call, because projection
and copy allocate fresh frames and every in-place column write hits a
freshly allocated frame, never the caller's. -/
theorem c10_inputs_unchanged (h : Heap) (maRef mapdRef : Nat) (y : Int) :
    ∀ j, j < h.length →
      ((mapd_clean_merge_heap h maRef mapdRef y).1)[j]? = h[j]? := by
  intro j hj
  simp only [mapd_clean_merge_heap]
  refine (heapLe_write ?_ _ (heapLe_append _ (heapLe_append _
    (heapLe_write ?_ _ (heapLe_append _ (heapLe_write ?_ _
      (heapLe_append _ (heapLe_append _ (heapLe_write ?_ _
        (heapLe_append _ (heapLe_append _ (heapLe_refl h)))))))))))).2 j hj
  all_goals simp [List.length_append, List.length_set]

/-- C10 witness: on a concrete two-frame heap both input frames are
unchanged by the call. -/
theorem c10_inputs_unchanged_witness :
    ((mapd_clean_merge_heap heap0 0 1 2010).1)[0]? = heap0[0]? ∧
    ((mapd_clean_merge_heap heap0 0 1 2010).1)[1]? = heap0[1]? :=
  ⟨c10_inputs_unchanged heap0 0 1 2010 0 (by decide),
   c10_inputs_unchanged heap0 0 1 2010 1 (by decide)⟩
